import Mathlib

/-!
Verification of the video-filters webcam application core.

The JavaScript source is shallowly embedded in Lean:
JS numbers become exact rationals (`ℚ`), typed-array reads that can fall
out of bounds become `Option`-valued reads, and the stateful closures
(clap detector, point smoother, edge cache, LUT cache) become explicit
state-passing step functions.  `Math.sqrt` has no exact rational
counterpart, so functions that use it are parameterized by the square-root
function; theorems that depend on it only assume `sq 0 = 0`, which holds
for the real square root.
-/

namespace VideoFilters

/-! ### Color math utilities (filters.js, LUT variant) -/

/-- `clamp01(x)`: clamp a scalar to the unit interval. -/
def clamp01 (x : ℚ) : ℚ := if x < 0 then 0 else if 1 < x then 1 else x

/-- `mix(a, b, t) = a + (b - a) * t`: linear interpolation. -/
def mix (a b t : ℚ) : ℚ := a + (b - a) * t

/-- `rgbToHsl(r, g, b)` from filters.js.  The `switch (max)` statement is
modelled as a nested conditional testing `max === r`, then `max === g`,
mirroring JS fall-through order on ties.  Note the source computes
`s = d / (max - min)` in the `l <= 0.5` branch, where `d = max - min`. -/
def rgbToHsl (r g b : ℚ) : ℚ × ℚ × ℚ :=
  let maxc := max r (max g b)
  let minc := min r (min g b)
  let l := (maxc + minc) / 2
  if maxc = minc then (0, 0, l)
  else
    let d := maxc - minc
    let s := if 1/2 < l then d / (2 - maxc - minc) else d / (maxc - minc)
    let h :=
      if maxc = r then (g - b) / d + (if g < b then 6 else 0)
      else if maxc = g then (b - r) / d + 2
      else (r - g) / d + 4
    (h / 6, s, l)

/-- The inner `hue2rgb(p, q, t)` helper of `hslToRgb`. -/
def hue2rgb (p q t : ℚ) : ℚ :=
  let t₁ := if t < 0 then t + 1 else t
  let t₂ := if 1 < t₁ then t₁ - 1 else t₁
  if t₂ < 1/6 then p + (q - p) * 6 * t₂
  else if t₂ < 1/2 then q
  else if t₂ < 2/3 then p + (q - p) * (2/3 - t₂) * 6
  else p

/-- `hslToRgb(h, s, l)` from filters.js. -/
def hslToRgb (h s l : ℚ) : ℚ × ℚ × ℚ :=
  if s = 0 then (l, l, l)
  else
    let q := if l < 1/2 then l * (1 + s) else l + s - l * s
    let p := 2 * l - q
    (hue2rgb p q (h + 1/3), hue2rgb p q h, hue2rgb p q (h - 1/3))

/-- The round trip `hslToRgb(rgbToHsl(r, g, b))` checked by the spec. -/
def hslRoundTrip (r g b : ℚ) : ℚ × ℚ × ℚ :=
  let hsl := rgbToHsl r g b
  hslToRgb hsl.1 hsl.2.1 hsl.2.2

/-! ### Clap gesture detector (app.js `createClapDetector`) -/

/-- The constants captured by `createClapDetector`'s closure. -/
structure ClapConfig where
  thresholdRel : ℚ
  minDurationMs : ℚ
  cooldownMs : ℚ
  hysteresisUp : ℚ

/-- The configuration used in app.js: `thresholdRel = 0.16`,
`minDurationMs = 90`, `cooldownMs = 650`,
`hysteresisUp = thresholdRel * 1.35`. -/
def appClapConfig : ClapConfig :=
  { thresholdRel := 4/25
    minDurationMs := 90
    cooldownMs := 650
    hysteresisUp := 4/25 * (27/20) }

/-- The mutable closure state of `createClapDetector`:
`belowSince` (null | timestamp), `cooldownUntil`, `inClapZone`. -/
structure ClapState where
  belowSince : Option ℚ
  cooldownUntil : ℚ
  inClapZone : Bool
deriving DecidableEq

/-- Detector state at construction: `belowSince = null`,
`cooldownUntil = 0`, `inClapZone = false`. -/
def initClapState : ClapState := ⟨none, 0, false⟩

/-- One `update(distNorm, bothHands, now)` call of the clap detector.
Returns the updated closure state and the boolean return value
(`true` = trigger).  Mirrors the source's branch order exactly. -/
def clapUpdate (cfg : ClapConfig) (s : ClapState)
    (distNorm : ℚ) (bothHands : Bool) (now : ℚ) : ClapState × Bool :=
  if bothHands = false then
    (⟨none, s.cooldownUntil, false⟩, false)
  else if now < s.cooldownUntil then
    (s, false)
  else if s.inClapZone = false ∧ distNorm < cfg.thresholdRel then
    let bs := match s.belowSince with
      | none => now
      | some t => t
    if cfg.minDurationMs ≤ now - bs then
      (⟨none, now + cfg.cooldownMs, true⟩, true)
    else
      (⟨some bs, s.cooldownUntil, s.inClapZone⟩, false)
  else if s.inClapZone = true ∧ cfg.hysteresisUp < distNorm then
    (⟨s.belowSince, s.cooldownUntil, false⟩, false)
  else if s.inClapZone = false ∧ cfg.thresholdRel ≤ distNorm then
    (⟨none, s.cooldownUntil, s.inClapZone⟩, false)
  else
    (s, false)

/-- One observed input of an `update` call. -/
structure ClapInput where
  d : ℚ
  both : Bool
  now : ℚ

/-- Detector state before the `n`-th call, for a stream of calls `f`. -/
def clapStateAt (cfg : ClapConfig) (s0 : ClapState) (f : ℕ → ClapInput) :
    ℕ → ClapState
  | 0 => s0
  | n + 1 =>
    (clapUpdate cfg (clapStateAt cfg s0 f n) (f n).d (f n).both (f n).now).1

/-- Return value of the `n`-th `update` call in the stream `f`. -/
def clapOutAt (cfg : ClapConfig) (s0 : ClapState) (f : ℕ → ClapInput)
    (n : ℕ) : Bool :=
  (clapUpdate cfg (clapStateAt cfg s0 f n) (f n).d (f n).both (f n).now).2

/-- The concrete call sequence of the spec's clap-detector test:
`update(0.05, true, 0), update(0.05, true, 50), update(0.05, true, 100),
update(0.05, true, 150)`. -/
def clapSeqC2 : ℕ → ClapInput
  | 0 => ⟨1/20, true, 0⟩
  | 1 => ⟨1/20, true, 50⟩
  | 2 => ⟨1/20, true, 100⟩
  | _ => ⟨1/20, true, 150⟩

/-- A call sequence with two triggers (calls 2 and 6) separated by an
exit call 3, where the hands move far apart after the cooldown has
expired. -/
def clapSeqC10 : ℕ → ClapInput
  | 0 => ⟨1/20, true, 0⟩
  | 1 => ⟨1/20, true, 50⟩
  | 2 => ⟨1/20, true, 100⟩
  | 3 => ⟨3/10, true, 800⟩
  | 4 => ⟨1/20, true, 900⟩
  | 5 => ⟨1/20, true, 950⟩
  | _ => ⟨1/20, true, 1000⟩

/-! ### Point smoother (app.js `makePointSmoother`) -/

/-- The default value of `makePointSmoother`'s `alpha` parameter:
`function makePointSmoother(alpha = 0.5)`.  (The two smoothers the app
actually constructs pass `0.4` explicitly.) -/
def smootherDefaultAlpha : ℚ := 1/2

/-- `push(x, y)` of a point smoother with closure state `pt`
(`null` modelled as `none`).  Returns the new state, which is also the
returned smoothed point. -/
def pushPoint (alpha : ℚ) (pt : Option (ℚ × ℚ)) (x y : ℚ) : ℚ × ℚ :=
  match pt with
  | none => (x, y)
  | some p => (p.1 * (1 - alpha) + x * alpha, p.2 * (1 - alpha) + y * alpha)

/-- An operation on a point smoother: `push(x, y)` or `reset()`. -/
inductive SmootherOp where
  | pushOp (x y : ℚ)
  | resetOp

/-- Run a sequence of smoother operations from closure state `pt`;
`resetOp` sets the state back to `none` as `reset()` does. -/
def runSmoother (alpha : ℚ) (pt : Option (ℚ × ℚ)) :
    List SmootherOp → Option (ℚ × ℚ)
  | [] => pt
  | SmootherOp.pushOp x y :: ops =>
    runSmoother alpha (some (pushPoint alpha pt x y)) ops
  | SmootherOp.resetOp :: ops => runSmoother alpha none ops

/-! ### LUT engine (filters.js `generate3DLUT` / `sampleLUT3D`) -/

/-- A procedural look function seeding a LUT build. -/
def Look : Type := ℚ → ℚ → ℚ → ℚ × ℚ × ℚ

/-- A built 3D LUT: `{ size, data }` with `data` the flat `Float32Array`
of `size³ × 3` channel values. -/
structure LUT where
  size : ℕ
  data : List ℚ

/-- Clamp all three channels of a triple, as `generate3DLUT` does before
storing. -/
def clampTriple (t : ℚ × ℚ × ℚ) : ℚ × ℚ × ℚ :=
  (clamp01 t.1, clamp01 t.2.1, clamp01 t.2.2)

/-- Channel `c` of a triple (`c = 0, 1, 2`). -/
def chan3 (c : ℕ) (t : ℚ × ℚ × ℚ) : ℚ :=
  if c = 0 then t.1 else if c = 1 then t.2.1 else t.2.2

/-- The flat array written by `generate3DLUT`'s triple loop: for each
`(ri, gi, bi)` in lexicographic order it appends the three clamped
channels of `transformFn(ri/(n-1), gi/(n-1), bi/(n-1))`. -/
def lutEntries (n : ℕ) (transformFn : Look) : List ℚ :=
  (List.range n).flatMap fun ri =>
    (List.range n).flatMap fun gi =>
      (List.range n).flatMap fun bi =>
        let out := transformFn ((ri : ℚ) / ((n : ℚ) - 1))
          ((gi : ℚ) / ((n : ℚ) - 1)) ((bi : ℚ) / ((n : ℚ) - 1))
        [clamp01 out.1, clamp01 out.2.1, clamp01 out.2.2]

/-- `generate3DLUT(size, transformFn)`. -/
def generate3DLUT (size : ℕ) (transformFn : Look) : LUT :=
  ⟨size, lutEntries size transformFn⟩

/-- Read `d[i]` from the LUT's flat array.  A read outside `[0, length)`
is modelled as `none`: in JS it yields `undefined`, which poisons the
interpolation arithmetic with `NaN`. -/
def readL (d : List ℚ) (i : ℤ) : Option ℚ :=
  if 0 ≤ i then d[i.toNat]? else none

/-- The source's `lerp3(i0, i1, t)` helper inside `sampleLUT3D`:
component-wise `mix` of the channel triples at flat offsets `i0`, `i1`. -/
def lerp3 (d : List ℚ) (i0 i1 : ℤ) (t : ℚ) : Option (ℚ × ℚ × ℚ) := do
  let a0 ← readL d i0
  let a1 ← readL d (i0 + 1)
  let a2 ← readL d (i0 + 2)
  let b0 ← readL d i1
  let b1 ← readL d (i1 + 1)
  let b2 ← readL d (i1 + 2)
  pure (mix a0 b0 t, mix a1 b1 t, mix a2 b2 t)

/-- The source's `idx(ri, gi, bi) = ((ri·n + gi)·n + bi)·3`. -/
def lutIdx (n : ℕ) (ri gi bi : ℤ) : ℤ := ((ri * n + gi) * n + bi) * 3

/-- `sampleLUT3D(lut, r, g, b)`: scale each channel into grid-cell
coordinates, take the floor plane and the `min(n-1, ·+1)` plane per axis
(the floor plane is NOT clamped in the source), and interpolate
trilinearly along r, then g, then b. -/
def sampleLUT3D (lut : LUT) (r g b : ℚ) : Option (ℚ × ℚ × ℚ) :=
  let n := lut.size
  let d := lut.data
  let rf := r * ((n : ℚ) - 1)
  let gf := g * ((n : ℚ) - 1)
  let bf := b * ((n : ℚ) - 1)
  let r0 := ⌊rf⌋
  let r1 := min ((n : ℤ) - 1) (r0 + 1)
  let g0 := ⌊gf⌋
  let g1 := min ((n : ℤ) - 1) (g0 + 1)
  let b0 := ⌊bf⌋
  let b1 := min ((n : ℤ) - 1) (b0 + 1)
  let t₁ := rf - r0
  let t₂ := gf - g0
  let t₃ := bf - b0
  do
    let x00 ← lerp3 d (lutIdx n r0 g0 b0) (lutIdx n r1 g0 b0) t₁
    let x10 ← lerp3 d (lutIdx n r0 g1 b0) (lutIdx n r1 g1 b0) t₁
    let x01 ← lerp3 d (lutIdx n r0 g0 b1) (lutIdx n r1 g0 b1) t₁
    let x11 ← lerp3 d (lutIdx n r0 g1 b1) (lutIdx n r1 g1 b1) t₁
    let y0 := (mix x00.1 x10.1 t₂, mix x00.2.1 x10.2.1 t₂, mix x00.2.2 x10.2.2 t₂)
    let y1 := (mix x01.1 x11.1 t₂, mix x01.2.1 x11.2.1 t₂, mix x01.2.2 x11.2.2 t₂)
    pure (mix y0.1 y1.1 t₃, mix y0.2.1 y1.2.1 t₃, mix y0.2.2 y1.2.2 t₃)

/-- The identity look, used to exercise LUT build and sampling. -/
def idLook : Look := fun r g b => (r, g, b)

/-- A small concrete LUT (size 2, all entries 1/2, 2·2·2·3 = 24 floats)
used to exercise in-range sampling. -/
def lutC4W : LUT := ⟨2, List.replicate 24 (1/2)⟩

/-! ### Sobel edge detector (filters.js `sobelEdge`) -/

/-- An `ImageData` value: width, height and the flat RGBA byte array. -/
structure ImgData where
  width : ℕ
  height : ℕ
  data : List ℕ
deriving DecidableEq

/-- Round half to even, the rounding an assignment into a
`Uint8ClampedArray` slot performs after clamping. -/
def roundHalfEven (x : ℚ) : ℤ :=
  let f := ⌊x⌋
  let r := x - f
  if r < 1/2 then f
  else if 1/2 < r then f + 1
  else if f % 2 = 0 then f else f + 1

/-- Store a scalar into a `Uint8ClampedArray` slot: clamp to `[0, 255]`,
then round half to even. -/
def toByte (x : ℚ) : ℕ := (roundHalfEven (max 0 (min 255 x))).toNat

/-- Read byte `j` of a frame's byte array (`src[j]`). -/
def srcByte (d : List ℕ) (j : ℕ) : ℕ := d.getD j 0

/-- `gray[i]`: Rec. 709 luma `0.2126·r + 0.7152·g + 0.0722·b` of pixel
`i`, read from bytes `4i, 4i+1, 4i+2`. -/
def grayAt (d : List ℕ) (i : ℕ) : ℚ :=
  2126/10000 * (srcByte d (4*i) : ℚ) + 7152/10000 * (srcByte d (4*i+1) : ℚ)
    + 722/10000 * (srcByte d (4*i+2) : ℚ)

/-- The scaled Sobel gradient magnitude
`Math.sqrt(gx² + gy²) * 0.25` at interior pixel `i`; `sq` models
`Math.sqrt`.  The neighbour offsets use the flat index `i = y·w + x`. -/
def sobelMag (sq : ℚ → ℚ) (d : List ℕ) (w i : ℕ) : ℚ :=
  let tl := grayAt d (i - w - 1)
  let tc := grayAt d (i - w)
  let tr2 := grayAt d (i - w + 1)
  let ml := grayAt d (i - 1)
  let mr := grayAt d (i + 1)
  let bl := grayAt d (i + w - 1)
  let bc := grayAt d (i + w)
  let br := grayAt d (i + w + 1)
  let gx := -tl + tr2 + -2 * ml + 2 * mr + -bl + br
  let gy := -tl - 2 * tc - tr2 + bl + 2 * bc + br
  sq (gx * gx + gy * gy) * (1/4)

/-- Byte `j` of `sobelEdge`'s output array.  The `Uint8ClampedArray` is
zero-initialized and the double loop writes only interior pixels
(`1 ≤ x < w-1`, `1 ≤ y < h-1`), storing the magnitude (clamped above at
255 by the source, below at 0 by the typed array) in the three color
bytes and 255 in alpha; all other bytes stay 0. -/
def sobelPixByte (sq : ℚ → ℚ) (d : List ℕ) (w h j : ℕ) : ℕ :=
  let i := j / 4
  let c := j % 4
  let x := i % w
  let y := i / w
  if 1 ≤ x ∧ x < w - 1 ∧ 1 ≤ y ∧ y < h - 1 then
    if c = 3 then 255
    else toByte (if 255 < sobelMag sq d w i then 255 else sobelMag sq d w i)
  else 0

/-- `sobelEdge(imageData, width, height)`: a new buffer with the same
dimensions and byte length as the input. -/
def sobelEdge (sq : ℚ → ℚ) (img : ImgData) : ImgData :=
  ⟨img.width, img.height,
   (List.range img.data.length).map
     (sobelPixByte sq img.data img.width img.height)⟩

/-- A concrete uniform 3×3 frame: every pixel is `(5, 5, 5, 7)`. -/
def uniformFrameW : ImgData := ⟨3, 3, (List.replicate 9 [5, 5, 5, 7]).flatten⟩

/-! ### Filter pipeline (filters.js, LUT variant) -/

/-- A canvas-like frame: dimensions and a pixel function (RGBA channels
as rationals). -/
structure CFrame where
  width : ℕ
  height : ℕ
  pix : ℕ → ℕ → ℚ × ℚ × ℚ × ℚ

/-- `drawMirrored(ctx, source, w, h, filterStr)`: draw the source
horizontally mirrored (translate(w,0), scale(-1,1)) with a CSS filter
applied, so target column `x` reads source column `w - 1 - x`.  `cssSem`
supplies the per-pixel semantics of a CSS filter string (a browser
primitive outside this repository); theorems assume only that
`cssSem "none"` is the identity. -/
def drawMirrored (cssSem : String → (ℚ × ℚ × ℚ × ℚ) → (ℚ × ℚ × ℚ × ℚ))
    (filterStr : String) (source : CFrame) : CFrame :=
  ⟨source.width, source.height,
   fun x y => cssSem filterStr (source.pix (source.width - 1 - x) y)⟩

/-- A `FilterList` entry: `{ key, kind, value, strength }`.  The LUT
entries' `makeLUT` closures call `generate3DLUT` on look functions that
use `Math.pow` with fractional exponents (no exact rational counterpart),
so the built table is not part of this record; only key, kind, value and
strength drive `apply`'s dispatch. -/
structure FilterMeta where
  key : String
  kind : String
  value : String
  strength : ℚ
deriving DecidableEq

/-- The LUT-variant `FilterList` of filters.js: `normal` plus four
LUT-graded looks. -/
def FilterList : List FilterMeta :=
  [⟨"normal", "css", "none", 1⟩,
   ⟨"wkw_neon", "lut", "", 1⟩,
   ⟨"wkw_verdant", "lut", "", 19/20⟩,
   ⟨"wes_pastel", "lut", "", 19/20⟩,
   ⟨"wes_vintage", "lut", "", 19/20⟩]

/-- `FilterList.find(f => f.key === filterKey)`. -/
def findFilter : List FilterMeta → String → Option FilterMeta
  | [], _ => none
  | m :: rest, k => if m.key = k then some m else findFilter rest k

/-- The rendering action `apply` dispatches to. -/
inductive RenderAction where
  | mirrorCss (value : String)
  | lutGrade (meta : FilterMeta)
  | pixelateAct
  | edgeAct
deriving DecidableEq

/-- The branch structure of `FilterPipeline.apply(offCtx, video,
filterKey)` (for nonzero dimensions): look the key up in `FilterList` and
dispatch on its kind; keys absent from the list (or of unknown kind) fall
through to the special-key section, whose final default is a plain
mirrored draw with filter `'none'`. -/
def applyAction (filterKey : String) : RenderAction :=
  match findFilter FilterList filterKey with
  | some meta =>
    if meta.kind = "css" ∨ meta.kind = "simple" then
      RenderAction.mirrorCss meta.value
    else if meta.kind = "lut" then RenderAction.lutGrade meta
    else if meta.kind = "pixelate" then RenderAction.pixelateAct
    else if meta.kind = "edge" then RenderAction.edgeAct
    else if filterKey = "pixelate" then RenderAction.pixelateAct
    else if filterKey = "edge" then RenderAction.edgeAct
    else RenderAction.mirrorCss "none"
  | none =>
    if filterKey = "pixelate" then RenderAction.pixelateAct
    else if filterKey = "edge" then RenderAction.edgeAct
    else RenderAction.mirrorCss "none"

/-- A concrete 2×1 frame used to exercise the mirror pass. -/
def mirrorFrameW : CFrame := ⟨2, 1, fun x y => ((x : ℚ), (y : ℚ), 0, 1)⟩

/-- `edgeCache`: the cached edge `ImageData` (null at start), the running
frame counter and the skip interval.  (`lastUpdateTs`, a wall-clock
reading used only for diagnostics, is not modelled.) -/
structure EdgeCache where
  imageData : Option ImgData
  frameCounter : ℕ
  skip : ℕ

/-- The cache as initialized by the `FilterPipeline` constructor:
`imageData: null, frameCounter: 0, skip: 1`. -/
def initEdgeCache : EdgeCache := ⟨none, 0, 1⟩

/-- The throttling core of `renderEdge`: increment the frame counter,
compute `shouldCompute = (frameCounter % (skip+1) === 0) || !imageData`,
and on recompute store `sobelEdge` of the freshly mirrored frame (passed
in, as `renderEdge` reads it back from the canvas it just drew).  Returns
the updated cache and whether a recompute happened. -/
def renderEdgeStep (sq : ℚ → ℚ) (ec : EdgeCache) (frame : ImgData) :
    EdgeCache × Bool :=
  let fc := ec.frameCounter + 1
  if fc % (ec.skip + 1) = 0 ∨ ec.imageData = none then
    (⟨some (sobelEdge sq frame), fc, ec.skip⟩, true)
  else
    (⟨ec.imageData, fc, ec.skip⟩, false)

/-- Run `renderEdge` over successive frames, collecting the recompute
flags in call order. -/
def renderEdgeRun (sq : ℚ → ℚ) (ec : EdgeCache) :
    List ImgData → EdgeCache × List Bool
  | [] => (ec, [])
  | f :: fs =>
    let r := renderEdgeStep sq ec f
    let rest := renderEdgeRun sq r.1 fs
    (rest.1, r.2 :: rest.2)

/-- A LUT-kind descriptor as `getOrCreateLUT` sees it: its key and its
`makeLUT` build closure. -/
structure LutMeta where
  key : String
  make : Unit → LUT

/-- `lutCache` lookup (`Map.has` / `Map.get` on the key). -/
def lutLookup : List (String × LUT) → String → Option LUT
  | [], _ => none
  | (k, v) :: rest, key => if k = key then some v else lutLookup rest key

/-- `getOrCreateLUT(meta)`: return the cached table if the key is
present; otherwise evaluate `meta.makeLUT()`, store it under the key, and
return it.  The boolean records whether a build happened on this call. -/
def getOrCreateLUT (cache : List (String × LUT)) (meta : LutMeta) :
    LUT × List (String × LUT) × Bool :=
  match lutLookup cache meta.key with
  | some t => (t, cache, false)
  | none =>
    let built := meta.make ()
    (built, (meta.key, built) :: cache, true)

/-- The cache interaction of a sequence of `renderLUT` invocations:
threads the cache through `getOrCreateLUT` and records, per call, the
key, the table used, and whether it was built on that call. -/
def runLUTCalls (cache : List (String × LUT)) :
    List LutMeta → List (String × LUT) × List (String × LUT × Bool)
  | [] => (cache, [])
  | m :: ms =>
    let r := getOrCreateLUT cache m
    let rest := runLUTCalls r.2.1 ms
    (rest.1, (m.key, r.1, r.2.2) :: rest.2)

/-- A concrete sequence of three LUT-grade invocations, twice the same
key then a different one. -/
def lutMetasW : List LutMeta :=
  [⟨"wkw_neon", fun _ => ⟨2, []⟩⟩, ⟨"wkw_neon", fun _ => ⟨2, []⟩⟩,
   ⟨"wes_pastel", fun _ => ⟨3, []⟩⟩]

end VideoFilters

namespace VideoFilters

/-- The spec's clap sequence yields `false, false, true, false`, and the
cooldown deadline after the trigger is `100 + 650 = 750`. -/
theorem clap_sequence_triggers_once :
    clapOutAt appClapConfig initClapState clapSeqC2 0 = false ∧
    clapOutAt appClapConfig initClapState clapSeqC2 1 = false ∧
    clapOutAt appClapConfig initClapState clapSeqC2 2 = true ∧
    clapOutAt appClapConfig initClapState clapSeqC2 3 = false ∧
    (clapStateAt appClapConfig initClapState clapSeqC2 3).cooldownUntil = 750 := by
  refine ⟨?_, ?_, ?_, ?_, ?_⟩ <;>
    norm_num [clapOutAt, clapStateAt, clapUpdate, appClapConfig, initClapState,
      clapSeqC2]

/-- The HSL round trip fails on the code: at `(r, g, b) = (1/2, 1/4, 1/4)`
the source's `rgbToHsl` computes saturation `d / (max - min) = 1` (the
`l <= 0.5` branch divides the chroma by itself instead of by `max + min`),
and `hslToRgb` maps the result to `(3/4, 0, 0)`, far from the original
triple, which is neither achromatic nor near any rounding boundary. -/
theorem hslRoundTrip_fails_at_half_quarter_quarter :
    hslRoundTrip (1/2) (1/4) (1/4) = (3/4, 0, 0) ∧
    ¬ hslRoundTrip (1/2) (1/4) (1/4) = (1/2, 1/4, 1/4) := by
  refine ⟨?_, ?_⟩ <;>
    norm_num [hslRoundTrip, rgbToHsl, hslToRgb, hue2rgb, Prod.ext_iff]

/-- Point smoother semantics at the source's default smoothing
coefficient `alpha = 0.5`: the first push after construction or after a
`reset()` returns the pushed point exactly, and a second push returns the
midpoint `state·(1-α) + (x,y)·α = ((a+x)/2, (b+y)/2)`. -/
theorem smoother_default_alpha_semantics (a b x y : ℚ) (s : Option (ℚ × ℚ)) :
    runSmoother smootherDefaultAlpha none [SmootherOp.pushOp x y] = some (x, y) ∧
    runSmoother smootherDefaultAlpha none
      [SmootherOp.pushOp a b, SmootherOp.pushOp x y] =
        some ((a + x) / 2, (b + y) / 2) ∧
    runSmoother smootherDefaultAlpha s
      [SmootherOp.resetOp, SmootherOp.pushOp x y] = some (x, y) ∧
    runSmoother smootherDefaultAlpha (some (a, b)) [SmootherOp.pushOp x y] =
      some (a * (1 - smootherDefaultAlpha) + x * smootherDefaultAlpha,
            b * (1 - smootherDefaultAlpha) + y * smootherDefaultAlpha) := by
  refine ⟨?_, ?_, ?_, ?_⟩ <;>
    norm_num [runSmoother, pushPoint, smootherDefaultAlpha, Prod.ext_iff] <;>
    ring_nf <;> simp

/-- A smoother created without an explicit coefficient uses `alpha = 0.5`,
not `0.4`: pushing `(1, 1)` onto state `(0, 0)` yields `(1/2, 1/2)`,
whereas `alpha = 0.4` would give `(2/5, 2/5)`. -/
theorem smoother_default_alpha_is_half_not_two_fifths :
    pushPoint smootherDefaultAlpha (some (0, 0)) 1 1 = (1/2, 1/2) ∧
    ¬ pushPoint smootherDefaultAlpha (some (0, 0)) 1 1 = (2/5, 2/5) := by
  refine ⟨?_, ?_⟩ <;> norm_num [pushPoint, smootherDefaultAlpha, Prod.ext_iff]

/-! ### LUT engine lemmas -/

theorem flatMap_const_length {α β : Type} (l : List α) (f : α → List β) (L : ℕ)
    (h : ∀ a ∈ l, (f a).length = L) :
    (l.flatMap f).length = l.length * L := by
  induction l with
  | nil => simp
  | cons a l ih =>
    simp only [List.flatMap_cons, List.length_append, List.length_cons]
    rw [h a (by simp), ih (fun x hx => h x (by simp [hx]))]
    ring

theorem getElem_flatMap_const {α β : Type} (l : List α) (f : α → List β)
    (L : ℕ) (h : ∀ a ∈ l, (f a).length = L) (i r : ℕ)
    (hi : i < l.length) (hr : r < L) :
    (l.flatMap f)[i * L + r]? = (f (l.get ⟨i, hi⟩))[r]? := by
  induction l generalizing i with
  | nil => simp at hi
  | cons a l ih =>
    cases i with
    | zero =>
      rw [List.flatMap_cons, List.getElem?_append,
        if_pos (by rw [h a (by simp)]; omega)]
      simp
    | succ i =>
      rw [List.flatMap_cons, List.getElem?_append,
        if_neg (by rw [h a (by simp)]; push_neg; nlinarith)]
      rw [h a (by simp)]
      have harith : (i + 1) * L + r - L = i * L + r := by
        have : (i + 1) * L = i * L + L := by ring
        omega
      rw [harith]
      have hi' : i < l.length := by simpa using hi
      rw [ih (fun x hx => h x (by simp [hx])) i hi']
      simp

theorem lutEntries_length (n : ℕ) (f : Look) :
    (lutEntries n f).length = n * n * n * 3 := by
  unfold lutEntries
  rw [flatMap_const_length _ _ (n * n * 3)]
  · simp; ring
  · intro a _
    rw [flatMap_const_length _ _ (n * 3)]
    · simp; ring
    · intro b _
      rw [flatMap_const_length _ _ 3]
      · simp
      · intro c _
        simp

theorem getElem_lutEntries (n : ℕ) (f : Look) (ri gi bi c : ℕ)
    (hri : ri < n) (hgi : gi < n) (hbi : bi < n) (hc : c < 3) :
    (lutEntries n f)[((ri * n + gi) * n + bi) * 3 + c]? =
      some (chan3 c (clampTriple
        (f ((ri : ℚ) / ((n : ℚ) - 1)) ((gi : ℚ) / ((n : ℚ) - 1))
          ((bi : ℚ) / ((n : ℚ) - 1))))) := by
  unfold lutEntries
  have hidx : ((ri * n + gi) * n + bi) * 3 + c =
      ri * (n * n * 3) + (gi * (n * 3) + (bi * 3 + c)) := by ring
  rw [hidx]
  rw [getElem_flatMap_const _ _ (n * n * 3) ?hlen1 ri _ (by simpa) ?hlt1]
  case hlen1 =>
    intro a _
    rw [flatMap_const_length _ _ (n * 3)]
    · simp; ring
    · intro b _
      rw [flatMap_const_length _ _ 3] <;> simp
  case hlt1 => nlinarith
  simp only [List.get_eq_getElem, List.getElem_range]
  rw [getElem_flatMap_const _ _ (n * 3) ?hlen2 gi _ (by simpa) ?hlt2]
  case hlen2 =>
    intro b _
    rw [flatMap_const_length _ _ 3] <;> simp
  case hlt2 => nlinarith
  simp only [List.get_eq_getElem, List.getElem_range]
  rw [getElem_flatMap_const _ _ 3 (by intro b _; simp) bi _ (by simpa) hc]
  simp only [List.get_eq_getElem, List.getElem_range]
  interval_cases c <;> simp [chan3, clampTriple]

theorem mix_zero (a b : ℚ) : mix a b 0 = a := by simp [mix]

theorem readL_natCast (d : List ℚ) (m : ℕ) : readL d (m : ℤ) = d[m]? := by
  rw [readL, if_pos (Int.natCast_nonneg m), Int.toNat_natCast]

theorem lerp3_lutEntries (n : ℕ) (f : Look) (a a' b c : ℕ) (t : ℚ)
    (ha : a < n) (ha' : a' < n) (hb : b < n) (hc : c < n) :
    lerp3 (lutEntries n f) (lutIdx n a b c) (lutIdx n a' b c) t =
      some
        (mix (chan3 0 (clampTriple (f ((a : ℚ) / ((n : ℚ) - 1))
            ((b : ℚ) / ((n : ℚ) - 1)) ((c : ℚ) / ((n : ℚ) - 1)))))
          (chan3 0 (clampTriple (f ((a' : ℚ) / ((n : ℚ) - 1))
            ((b : ℚ) / ((n : ℚ) - 1)) ((c : ℚ) / ((n : ℚ) - 1))))) t,
         mix (chan3 1 (clampTriple (f ((a : ℚ) / ((n : ℚ) - 1))
            ((b : ℚ) / ((n : ℚ) - 1)) ((c : ℚ) / ((n : ℚ) - 1)))))
          (chan3 1 (clampTriple (f ((a' : ℚ) / ((n : ℚ) - 1))
            ((b : ℚ) / ((n : ℚ) - 1)) ((c : ℚ) / ((n : ℚ) - 1))))) t,
         mix (chan3 2 (clampTriple (f ((a : ℚ) / ((n : ℚ) - 1))
            ((b : ℚ) / ((n : ℚ) - 1)) ((c : ℚ) / ((n : ℚ) - 1)))))
          (chan3 2 (clampTriple (f ((a' : ℚ) / ((n : ℚ) - 1))
            ((b : ℚ) / ((n : ℚ) - 1)) ((c : ℚ) / ((n : ℚ) - 1))))) t) := by
  have key : ∀ (x : ℕ) (off : ℕ), x < n → off < 3 →
      readL (lutEntries n f) (lutIdx n x b c + off) =
        some (chan3 off (clampTriple (f ((x : ℚ) / ((n : ℚ) - 1))
          ((b : ℚ) / ((n : ℚ) - 1)) ((c : ℚ) / ((n : ℚ) - 1))))) := by
    intro x off hx hoff
    have hcast : lutIdx n x b c + (off : ℤ) =
        (((((x * n + b) * n + c) * 3 + off : ℕ)) : ℤ) := by
      unfold lutIdx; push_cast; ring
    rw [hcast, readL_natCast]
    exact getElem_lutEntries n f x b c off hx hb hc hoff
  have k00 := key a 0 ha (by norm_num)
  have k01 := key a 1 ha (by norm_num)
  have k02 := key a 2 ha (by norm_num)
  have k10 := key a' 0 ha' (by norm_num)
  have k11 := key a' 1 ha' (by norm_num)
  have k12 := key a' 2 ha' (by norm_num)
  simp only [Nat.cast_zero, add_zero, Nat.cast_one, Nat.cast_ofNat] at k00 k01 k02 k10 k11 k12
  simp [lerp3, k00, k01, k02, k10, k11, k12]

/-- Sampling a built LUT exactly at a lattice grid point returns the
clamped triple stored at flattened index `((i·N + j)·N + k)·3`, with no
interpolation error: all three fractional offsets vanish. -/
theorem sampleLUT3D_exact_at_grid_points (f : Look) (i j k : ℕ)
    (hi : i < 17) (hj : j < 17) (hk : k < 17) :
    ∃ v0 v1 v2 : ℚ,
      (generate3DLUT 17 f).data[((i * 17 + j) * 17 + k) * 3]? = some v0 ∧
      (generate3DLUT 17 f).data[((i * 17 + j) * 17 + k) * 3 + 1]? = some v1 ∧
      (generate3DLUT 17 f).data[((i * 17 + j) * 17 + k) * 3 + 2]? = some v2 ∧
      v0 = clamp01 (f ((i : ℚ)/16) ((j : ℚ)/16) ((k : ℚ)/16)).1 ∧
      v1 = clamp01 (f ((i : ℚ)/16) ((j : ℚ)/16) ((k : ℚ)/16)).2.1 ∧
      v2 = clamp01 (f ((i : ℚ)/16) ((j : ℚ)/16) ((k : ℚ)/16)).2.2 ∧
      sampleLUT3D (generate3DLUT 17 f) ((i : ℚ)/16) ((j : ℚ)/16) ((k : ℚ)/16) =
        some (v0, v1, v2) := by
  have h171 : ((17 : ℚ) - 1) = 16 := by norm_num
  refine ⟨clamp01 (f ((i : ℚ)/16) ((j : ℚ)/16) ((k : ℚ)/16)).1,
    clamp01 (f ((i : ℚ)/16) ((j : ℚ)/16) ((k : ℚ)/16)).2.1,
    clamp01 (f ((i : ℚ)/16) ((j : ℚ)/16) ((k : ℚ)/16)).2.2,
    ?_, ?_, ?_, rfl, rfl, rfl, ?_⟩
  · have h := getElem_lutEntries 17 f i j k 0 hi hj hk (by norm_num)
    simpa [generate3DLUT, chan3, clampTriple, h171] using h
  · have h := getElem_lutEntries 17 f i j k 1 hi hj hk (by norm_num)
    simpa [generate3DLUT, chan3, clampTriple, h171] using h
  · have h := getElem_lutEntries 17 f i j k 2 hi hj hk (by norm_num)
    simpa [generate3DLUT, chan3, clampTriple, h171] using h
  · have hfl : ∀ m : ℕ, ⌊(m : ℚ)/16 * ((17 : ℚ) - 1)⌋ = (m : ℤ) := by
      intro m
      have hm : (m : ℚ)/16 * ((17 : ℚ) - 1) = (m : ℚ) := by
        rw [h171]; field_simp
      rw [hm, Int.floor_natCast]
    have ht : ∀ m : ℕ, (m : ℚ)/16 * ((17 : ℚ) - 1) - (((m : ℕ) : ℤ) : ℚ) = 0 := by
      intro m; push_cast; ring
    have hmin : ∀ m : ℕ, min ((17 : ℤ) - 1) ((m : ℤ) + 1) =
        ((min 16 (m + 1) : ℕ) : ℤ) := by
      intro m; omega
    have hminlt : ∀ m : ℕ, min 16 (m + 1) < 17 := by intro m; omega
    simp only [sampleLUT3D, generate3DLUT, Nat.cast_ofNat]
    rw [hfl i, hfl j, hfl k, ht i, ht j, ht k, hmin i, hmin j, hmin k]
    rw [lerp3_lutEntries 17 f i (min 16 (i+1)) j k 0 hi (hminlt i) hj hk,
      lerp3_lutEntries 17 f i (min 16 (i+1)) (min 16 (j+1)) k 0 hi (hminlt i)
        (hminlt j) hk,
      lerp3_lutEntries 17 f i (min 16 (i+1)) j (min 16 (k+1)) 0 hi (hminlt i)
        hj (hminlt k),
      lerp3_lutEntries 17 f i (min 16 (i+1)) (min 16 (j+1)) (min 16 (k+1)) 0
        hi (hminlt i) (hminlt j) (hminlt k)]
    simp [mix_zero, chan3, clampTriple, h171]

/-- Witness: the grid-point theorem applied to the identity look at
lattice point `(1, 1, 1)` of the size-17 cube. -/
theorem sampleLUT3D_exact_at_grid_points_witness :
    (1 : ℕ) < 17 ∧
    (∃ v0 v1 v2 : ℚ,
      (generate3DLUT 17 idLook).data[((1 * 17 + 1) * 17 + 1) * 3]? = some v0 ∧
      (generate3DLUT 17 idLook).data[((1 * 17 + 1) * 17 + 1) * 3 + 1]? = some v1 ∧
      (generate3DLUT 17 idLook).data[((1 * 17 + 1) * 17 + 1) * 3 + 2]? = some v2 ∧
      v0 = clamp01 (idLook (((1:ℕ) : ℚ)/16) (((1:ℕ) : ℚ)/16) (((1:ℕ) : ℚ)/16)).1 ∧
      v1 = clamp01 (idLook (((1:ℕ) : ℚ)/16) (((1:ℕ) : ℚ)/16) (((1:ℕ) : ℚ)/16)).2.1 ∧
      v2 = clamp01 (idLook (((1:ℕ) : ℚ)/16) (((1:ℕ) : ℚ)/16) (((1:ℕ) : ℚ)/16)).2.2 ∧
      sampleLUT3D (generate3DLUT 17 idLook)
        (((1:ℕ) : ℚ)/16) (((1:ℕ) : ℚ)/16) (((1:ℕ) : ℚ)/16) = some (v0, v1, v2)) :=
  ⟨by norm_num,
   sampleLUT3D_exact_at_grid_points idLook 1 1 1 (by norm_num) (by norm_num)
     (by norm_num)⟩

/-- The claim that `sampleLUT3D` keeps every table access in bounds for
out-of-range queries is false: the floor plane index is never clamped, so
querying `r = 2` on a size-2 table reads flat offset 24 of a 24-element
array — out of bounds, modelled as `none`. -/
theorem sampleLUT3D_out_of_range_reads_out_of_bounds :
    sampleLUT3D ⟨2, List.replicate 24 0⟩ 2 0 0 = none := by
  have hf2 : ⌊(2:ℚ) * (((2:ℕ) : ℚ) - 1)⌋ = 2 := by norm_num
  have hf0 : ⌊(0:ℚ) * (((2:ℕ) : ℚ) - 1)⌋ = 0 := by norm_num
  have hidx : lutIdx 2 2 0 0 = 24 := by norm_num [lutIdx]
  have hread : readL (List.replicate 24 (0:ℚ)) 24 = none := by
    rw [readL, if_pos (by norm_num)]
    simp
  have hlerp : ∀ i1 : ℤ, ∀ t : ℚ,
      lerp3 (List.replicate 24 (0:ℚ)) (lutIdx 2 2 0 0) i1 t = none := by
    intro i1 t
    rw [lerp3, hidx, hread]
    rfl
  simp only [sampleLUT3D, hf2, hf0]
  rw [hlerp]
  rfl

theorem mix_mem_unit {a b t : ℚ} (ha : 0 ≤ a ∧ a ≤ 1) (hb : 0 ≤ b ∧ b ≤ 1)
    (ht : 0 ≤ t ∧ t ≤ 1) : 0 ≤ mix a b t ∧ mix a b t ≤ 1 := by
  unfold mix
  constructor <;> nlinarith [ha.1, ha.2, hb.1, hb.2, ht.1, ht.2]

theorem readL_mem (d : List ℚ) (i : ℤ) (h0 : 0 ≤ i)
    (hl : i < (d.length : ℤ)) : ∃ v, readL d i = some v ∧ v ∈ d := by
  have hn : i.toNat < d.length := by omega
  refine ⟨d[i.toNat], ?_, List.getElem_mem hn⟩
  rw [readL, if_pos h0, List.getElem?_eq_getElem hn]

theorem lerp3_bounds (d : List ℚ) (i0 i1 : ℤ) (t : ℚ)
    (hd : ∀ q ∈ d, 0 ≤ q ∧ q ≤ 1)
    (h00 : 0 ≤ i0) (h0l : i0 + 2 < (d.length : ℤ))
    (h10 : 0 ≤ i1) (h1l : i1 + 2 < (d.length : ℤ))
    (ht : 0 ≤ t ∧ t ≤ 1) :
    ∃ u v w, lerp3 d i0 i1 t = some (u, v, w) ∧
      (0 ≤ u ∧ u ≤ 1) ∧ (0 ≤ v ∧ v ≤ 1) ∧ (0 ≤ w ∧ w ≤ 1) := by
  obtain ⟨a0, ha0, ha0m⟩ := readL_mem d i0 h00 (by omega)
  obtain ⟨a1, ha1, ha1m⟩ := readL_mem d (i0 + 1) (by omega) (by omega)
  obtain ⟨a2, ha2, ha2m⟩ := readL_mem d (i0 + 2) (by omega) (by omega)
  obtain ⟨b0, hb0, hb0m⟩ := readL_mem d i1 h10 (by omega)
  obtain ⟨b1, hb1, hb1m⟩ := readL_mem d (i1 + 1) (by omega) (by omega)
  obtain ⟨b2, hb2, hb2m⟩ := readL_mem d (i1 + 2) (by omega) (by omega)
  refine ⟨mix a0 b0 t, mix a1 b1 t, mix a2 b2 t, ?_, ?_, ?_, ?_⟩
  · simp [lerp3, ha0, ha1, ha2, hb0, hb1, hb2]
  · exact mix_mem_unit (hd _ ha0m) (hd _ hb0m) ht
  · exact mix_mem_unit (hd _ ha1m) (hd _ hb1m) ht
  · exact mix_mem_unit (hd _ ha2m) (hd _ hb2m) ht

theorem lutIdx_bounds {n : ℕ} {a b c : ℤ} (h1 : 1 ≤ (n : ℤ))
    (ha : 0 ≤ a) (ha' : a ≤ (n : ℤ) - 1) (hb : 0 ≤ b) (hb' : b ≤ (n : ℤ) - 1)
    (hc : 0 ≤ c) (hc' : c ≤ (n : ℤ) - 1) :
    0 ≤ lutIdx n a b c ∧
      lutIdx n a b c + 2 < ((n * n * n * 3 : ℕ) : ℤ) := by
  unfold lutIdx
  push_cast
  have k1 : a * (n : ℤ) ≤ ((n : ℤ) - 1) * n := by nlinarith
  have k2 : a * (n : ℤ) + b ≤ (n : ℤ) * n - 1 := by nlinarith
  have k3 : (a * (n : ℤ) + b) * n ≤ ((n : ℤ) * n - 1) * n := by nlinarith
  constructor
  · nlinarith
  · nlinarith

theorem floor_scale_bounds {n : ℕ} (h1 : 1 ≤ n) {x : ℚ}
    (hx0 : 0 ≤ x) (hx1 : x ≤ 1) :
    0 ≤ ⌊x * ((n : ℚ) - 1)⌋ ∧ ⌊x * ((n : ℚ) - 1)⌋ ≤ (n : ℤ) - 1 ∧
    0 ≤ x * ((n : ℚ) - 1) - (⌊x * ((n : ℚ) - 1)⌋ : ℚ) ∧
    x * ((n : ℚ) - 1) - (⌊x * ((n : ℚ) - 1)⌋ : ℚ) ≤ 1 := by
  have hn1 : (0 : ℚ) ≤ (n : ℚ) - 1 := by
    have : (1 : ℚ) ≤ (n : ℚ) := by exact_mod_cast h1
    linarith
  have h0 : 0 ≤ x * ((n : ℚ) - 1) := mul_nonneg hx0 hn1
  have hup : x * ((n : ℚ) - 1) ≤ (n : ℚ) - 1 := by nlinarith
  refine ⟨Int.floor_nonneg.mpr h0, ?_, ?_, ?_⟩
  · have hmono := Int.floor_le_floor (α := ℚ) hup
    have he : ⌊(n : ℚ) - 1⌋ = (n : ℤ) - 1 := by
      have hcast : ((n : ℚ) - 1) = (((n : ℤ) - 1 : ℤ) : ℚ) := by push_cast; ring
      rw [hcast, Int.floor_intCast]
    linarith [hmono, he.le, he.ge]
  · have := Int.floor_le (x * ((n : ℚ) - 1))
    linarith
  · have := Int.lt_floor_add_one (x * ((n : ℚ) - 1))
    linarith

/-- Amended safety claim: for queries with every channel in `[0, 1]` (the
domain the render loop supplies, since it divides bytes by 255), all
bounding lattice indices lie in `[0, N-1]`, every table access is in
bounds (the sample is `some _`), and the interpolated triple stays in
`[0, 1]³` whenever the table data does. -/
theorem sampleLUT3D_in_range_is_safe (lut : LUT) (r g b : ℚ)
    (hn : 1 ≤ lut.size)
    (hlen : lut.data.length = lut.size * lut.size * lut.size * 3)
    (hdata : ∀ q ∈ lut.data, 0 ≤ q ∧ q ≤ 1)
    (hr0 : 0 ≤ r) (hr1 : r ≤ 1) (hg0 : 0 ≤ g) (hg1 : g ≤ 1)
    (hb0 : 0 ≤ b) (hb1 : b ≤ 1) :
    (0 ≤ ⌊r * ((lut.size : ℚ) - 1)⌋ ∧
      ⌊r * ((lut.size : ℚ) - 1)⌋ ≤ (lut.size : ℤ) - 1) ∧
    (0 ≤ ⌊g * ((lut.size : ℚ) - 1)⌋ ∧
      ⌊g * ((lut.size : ℚ) - 1)⌋ ≤ (lut.size : ℤ) - 1) ∧
    (0 ≤ ⌊b * ((lut.size : ℚ) - 1)⌋ ∧
      ⌊b * ((lut.size : ℚ) - 1)⌋ ≤ (lut.size : ℤ) - 1) ∧
    ∃ p q s : ℚ, sampleLUT3D lut r g b = some (p, q, s) ∧
      (0 ≤ p ∧ p ≤ 1) ∧ (0 ≤ q ∧ q ≤ 1) ∧ (0 ≤ s ∧ s ≤ 1) := by
  obtain ⟨hR0, hR1, hTr0, hTr1⟩ := floor_scale_bounds hn hr0 hr1
  obtain ⟨hG0, hG1, hTg0, hTg1⟩ := floor_scale_bounds hn hg0 hg1
  obtain ⟨hB0, hB1, hTb0, hTb1⟩ := floor_scale_bounds hn hb0 hb1
  refine ⟨⟨hR0, hR1⟩, ⟨hG0, hG1⟩, ⟨hB0, hB1⟩, ?_⟩
  have hn1 : 1 ≤ (lut.size : ℤ) := by exact_mod_cast hn
  have hlen' : (lut.data.length : ℤ) =
      ((lut.size * lut.size * lut.size * 3 : ℕ) : ℤ) := by exact_mod_cast hlen
  simp only [sampleLUT3D]
  set n := lut.size with hnn
  set d := lut.data with hdd
  set R0 := ⌊r * ((n : ℚ) - 1)⌋ with hR0e
  set G0 := ⌊g * ((n : ℚ) - 1)⌋ with hG0e
  set B0 := ⌊b * ((n : ℚ) - 1)⌋ with hB0e
  set R1 := min ((n : ℤ) - 1) (R0 + 1) with hR1e
  set G1 := min ((n : ℤ) - 1) (G0 + 1) with hG1e
  set B1 := min ((n : ℤ) - 1) (B0 + 1) with hB1e
  have hR1b : 0 ≤ R1 ∧ R1 ≤ (n : ℤ) - 1 := ⟨le_min (by omega) (by omega), min_le_left _ _⟩
  have hG1b : 0 ≤ G1 ∧ G1 ≤ (n : ℤ) - 1 := ⟨le_min (by omega) (by omega), min_le_left _ _⟩
  have hB1b : 0 ≤ B1 ∧ B1 ≤ (n : ℤ) - 1 := ⟨le_min (by omega) (by omega), min_le_left _ _⟩
  have bound : ∀ a c e : ℤ, 0 ≤ a → a ≤ (n : ℤ) - 1 → 0 ≤ c → c ≤ (n : ℤ) - 1 →
      0 ≤ e → e ≤ (n : ℤ) - 1 →
      0 ≤ lutIdx n a c e ∧ lutIdx n a c e + 2 < (d.length : ℤ) := by
    intro a c e h1 h2 h3 h4 h5 h6
    rw [hlen']
    exact lutIdx_bounds hn1 h1 h2 h3 h4 h5 h6
  have b000 := bound R0 G0 B0 hR0 hR1 hG0 hG1 hB0 hB1
  have b100 := bound R1 G0 B0 hR1b.1 hR1b.2 hG0 hG1 hB0 hB1
  have b010 := bound R0 G1 B0 hR0 hR1 hG1b.1 hG1b.2 hB0 hB1
  have b110 := bound R1 G1 B0 hR1b.1 hR1b.2 hG1b.1 hG1b.2 hB0 hB1
  have b001 := bound R0 G0 B1 hR0 hR1 hG0 hG1 hB1b.1 hB1b.2
  have b101 := bound R1 G0 B1 hR1b.1 hR1b.2 hG0 hG1 hB1b.1 hB1b.2
  have b011 := bound R0 G1 B1 hR0 hR1 hG1b.1 hG1b.2 hB1b.1 hB1b.2
  have b111 := bound R1 G1 B1 hR1b.1 hR1b.2 hG1b.1 hG1b.2 hB1b.1 hB1b.2
  obtain ⟨u00, v00, w00, hx00, hu00, hv00, hw00⟩ :=
    lerp3_bounds d (lutIdx n R0 G0 B0) (lutIdx n R1 G0 B0)
      (r * ((n : ℚ) - 1) - (R0 : ℚ)) hdata b000.1 b000.2 b100.1 b100.2
      ⟨hTr0, hTr1⟩
  obtain ⟨u10, v10, w10, hx10, hu10, hv10, hw10⟩ :=
    lerp3_bounds d (lutIdx n R0 G1 B0) (lutIdx n R1 G1 B0)
      (r * ((n : ℚ) - 1) - (R0 : ℚ)) hdata b010.1 b010.2 b110.1 b110.2
      ⟨hTr0, hTr1⟩
  obtain ⟨u01, v01, w01, hx01, hu01, hv01, hw01⟩ :=
    lerp3_bounds d (lutIdx n R0 G0 B1) (lutIdx n R1 G0 B1)
      (r * ((n : ℚ) - 1) - (R0 : ℚ)) hdata b001.1 b001.2 b101.1 b101.2
      ⟨hTr0, hTr1⟩
  obtain ⟨u11, v11, w11, hx11, hu11, hv11, hw11⟩ :=
    lerp3_bounds d (lutIdx n R0 G1 B1) (lutIdx n R1 G1 B1)
      (r * ((n : ℚ) - 1) - (R0 : ℚ)) hdata b011.1 b011.2 b111.1 b111.2
      ⟨hTr0, hTr1⟩
  rw [hx00, hx10, hx01, hx11]
  refine ⟨_, _, _, rfl, ?_, ?_, ?_⟩
  · exact mix_mem_unit (mix_mem_unit hu00 hu10 ⟨hTg0, hTg1⟩)
      (mix_mem_unit hu01 hu11 ⟨hTg0, hTg1⟩) ⟨hTb0, hTb1⟩
  · exact mix_mem_unit (mix_mem_unit hv00 hv10 ⟨hTg0, hTg1⟩)
      (mix_mem_unit hv01 hv11 ⟨hTg0, hTg1⟩) ⟨hTb0, hTb1⟩
  · exact mix_mem_unit (mix_mem_unit hw00 hw10 ⟨hTg0, hTg1⟩)
      (mix_mem_unit hw01 hw11 ⟨hTg0, hTg1⟩) ⟨hTb0, hTb1⟩

/-- Witness: in-range sampling of the small concrete LUT at
`(1/2, 1/2, 1/2)`. -/
theorem sampleLUT3D_in_range_is_safe_witness :
    (1 ≤ lutC4W.size) ∧
    (∃ p q s : ℚ, sampleLUT3D lutC4W (1/2) (1/2) (1/2) = some (p, q, s) ∧
      (0 ≤ p ∧ p ≤ 1) ∧ (0 ≤ q ∧ q ≤ 1) ∧ (0 ≤ s ∧ s ≤ 1)) :=
  ⟨by norm_num [lutC4W],
   (sampleLUT3D_in_range_is_safe lutC4W (1/2) (1/2) (1/2)
      (by norm_num [lutC4W])
      (by norm_num [lutC4W])
      (by intro q hq
          have hq2 : q ∈ List.replicate 24 ((1:ℚ)/2) := by
            simpa [lutC4W] using hq
          have hqe := List.eq_of_mem_replicate hq2
          subst hqe
          norm_num)
      (by norm_num) (by norm_num) (by norm_num) (by norm_num) (by norm_num)
      (by norm_num)).2.2.2⟩

/-! ### Sobel edge detector lemmas -/

theorem toByte_zero : toByte 0 = 0 := by
  norm_num [toByte, roundHalfEven]

theorem sobelPixByte_decode (sq : ℚ → ℚ) (d : List ℕ) (w h x y c : ℕ)
    (hx : x < w) (hc : c < 4) :
    sobelPixByte sq d w h (4 * (y * w + x) + c) =
      if 1 ≤ x ∧ x < w - 1 ∧ 1 ≤ y ∧ y < h - 1 then
        if c = 3 then 255
        else toByte (if 255 < sobelMag sq d w (y * w + x) then 255
          else sobelMag sq d w (y * w + x))
      else 0 := by
  have hw : 0 < w := by omega
  have hdiv : (4 * (y * w + x) + c) / 4 = y * w + x := by omega
  have hmod : (4 * (y * w + x) + c) % 4 = c := by omega
  have hE : y * w + x = x + y * w := by ring
  have hxw : (y * w + x) % w = x := by
    rw [hE, Nat.add_mul_mod_self_right, Nat.mod_eq_of_lt hx]
  have hyw : (y * w + x) / w = y := by
    rw [hE, Nat.add_mul_div_right _ _ hw, Nat.div_eq_of_lt hx, Nat.zero_add]
  simp only [sobelPixByte, hdiv, hmod, hxw, hyw]

theorem sobelMag_of_const_gray (sq : ℚ → ℚ) (hsq : sq 0 = 0) (d : List ℕ)
    (w i : ℕ) (L : ℚ)
    (h1 : grayAt d (i - w - 1) = L) (h2 : grayAt d (i - w) = L)
    (h3 : grayAt d (i - w + 1) = L) (h4 : grayAt d (i - 1) = L)
    (h5 : grayAt d (i + 1) = L) (h6 : grayAt d (i + w - 1) = L)
    (h7 : grayAt d (i + w) = L) (h8 : grayAt d (i + w + 1) = L) :
    sobelMag sq d w i = 0 := by
  have key : ∀ q : ℚ, q = 0 → sq q * (1/4) = 0 := by
    intro q hq
    rw [hq, hsq]
    norm_num
  simp only [sobelMag, h1, h2, h3, h4, h5, h6, h7, h8]
  apply key
  ring

/-- On a uniform (flat-color) frame of width and height at least 3,
`sobelEdge` returns a buffer of identical dimensions whose interior
pixels are zero-magnitude opaque black `(0,0,0,255)` and whose 1-pixel
border stays the zero-initialized transparent black `(0,0,0,0)`. -/
theorem sobelEdge_uniform_frame (sq : ℚ → ℚ) (img : ImgData) (r0 g0 b0 : ℕ)
    (hsq : sq 0 = 0)
    (h3w : 3 ≤ img.width) (h3h : 3 ≤ img.height)
    (hlen : img.data.length = img.width * img.height * 4)
    (huni : ∀ p, p < img.width * img.height →
      srcByte img.data (4*p) = r0 ∧ srcByte img.data (4*p+1) = g0 ∧
        srcByte img.data (4*p+2) = b0) :
    (sobelEdge sq img).width = img.width ∧
    (sobelEdge sq img).height = img.height ∧
    (sobelEdge sq img).data.length = img.data.length ∧
    ∀ x y, x < img.width → y < img.height →
      ((1 ≤ x ∧ x < img.width - 1 ∧ 1 ≤ y ∧ y < img.height - 1) →
        (sobelEdge sq img).data[4*(y*img.width+x)]? = some 0 ∧
        (sobelEdge sq img).data[4*(y*img.width+x)+1]? = some 0 ∧
        (sobelEdge sq img).data[4*(y*img.width+x)+2]? = some 0 ∧
        (sobelEdge sq img).data[4*(y*img.width+x)+3]? = some 255) ∧
      (¬(1 ≤ x ∧ x < img.width - 1 ∧ 1 ≤ y ∧ y < img.height - 1) →
        (sobelEdge sq img).data[4*(y*img.width+x)]? = some 0 ∧
        (sobelEdge sq img).data[4*(y*img.width+x)+1]? = some 0 ∧
        (sobelEdge sq img).data[4*(y*img.width+x)+2]? = some 0 ∧
        (sobelEdge sq img).data[4*(y*img.width+x)+3]? = some 0) := by
  set w := img.width with hwdef
  set h := img.height with hhdef
  set d := img.data with hddef
  have hget : ∀ j, j < d.length →
      (sobelEdge sq img).data[j]? = some (sobelPixByte sq d w h j) := by
    intro j hj
    simp [sobelEdge, List.getElem?_map, List.getElem?_range, hj]
  refine ⟨rfl, rfl, by simp [sobelEdge], ?_⟩
  intro x y hx hy
  have hyx : y * w + x < w * h := by
    have h1 : y * w + x < (y + 1) * w := by
      have he : (y + 1) * w = y * w + w := by ring
      omega
    have h2 : (y + 1) * w ≤ h * w := Nat.mul_le_mul_right w hy
    have h3 : h * w = w * h := Nat.mul_comm h w
    omega
  have hjlt : ∀ c, c < 4 → 4 * (y * w + x) + c < d.length := by
    intro c hc
    rw [hlen]
    omega
  have hbyte : ∀ c, c < 4 →
      (sobelEdge sq img).data[4*(y*w+x)+c]? =
        some (if 1 ≤ x ∧ x < w - 1 ∧ 1 ≤ y ∧ y < h - 1 then
          if c = 3 then 255
          else toByte (if 255 < sobelMag sq d w (y*w+x) then 255
            else sobelMag sq d w (y*w+x))
        else 0) := by
    intro c hc
    rw [hget _ (hjlt c hc), sobelPixByte_decode sq d w h x y c hx hc]
  constructor
  · intro hint
    have hL : ∀ p, p < w * h → grayAt d p =
        2126/10000 * (r0 : ℚ) + 7152/10000 * (g0 : ℚ) + 722/10000 * (b0 : ℚ) := by
      intro p hp
      obtain ⟨e1, e2, e3⟩ := huni p hp
      rw [grayAt, e1, e2, e3]
    have hiB : y * w + x + w + 1 < w * h := by
      have h1 : y * w + x + w + 1 < (y + 2) * w := by
        have he : (y + 2) * w = y * w + 2 * w := by ring
        omega
      have h2 : (y + 2) * w ≤ h * w := Nat.mul_le_mul_right w (by omega)
      have h3 : h * w = w * h := Nat.mul_comm h w
      omega
    have hmag : sobelMag sq d w (y*w+x) = 0 := by
      apply sobelMag_of_const_gray sq hsq d w (y*w+x) _ <;>
        exact hL _ (by omega)
    have hval : toByte (if 255 < sobelMag sq d w (y*w+x) then 255
        else sobelMag sq d w (y*w+x)) = 0 := by
      rw [hmag]
      norm_num [toByte_zero]
    refine ⟨?_, ?_, ?_, ?_⟩
    · rw [show 4*(y*w+x) = 4*(y*w+x) + 0 by omega, hbyte 0 (by norm_num),
        if_pos hint]
      simp [hval]
    · rw [hbyte 1 (by norm_num), if_pos hint]
      simp [hval]
    · rw [hbyte 2 (by norm_num), if_pos hint]
      simp [hval]
    · rw [hbyte 3 (by norm_num), if_pos hint]
      simp
  · intro hout
    refine ⟨?_, ?_, ?_, ?_⟩
    · rw [show 4*(y*w+x) = 4*(y*w+x) + 0 by omega, hbyte 0 (by norm_num),
        if_neg hout]
    · rw [hbyte 1 (by norm_num), if_neg hout]
    · rw [hbyte 2 (by norm_num), if_neg hout]
    · rw [hbyte 3 (by norm_num), if_neg hout]

/-- Witness: the uniform-frame theorem applied to the concrete 3×3 frame
with every pixel `(5, 5, 5, 7)`, using `Rat.sqrt` for the square root;
its single interior pixel `(1, 1)` is `(0, 0, 0, 255)`. -/
theorem sobelEdge_uniform_frame_witness :
    Rat.sqrt 0 = 0 ∧
    3 ≤ uniformFrameW.width ∧ 3 ≤ uniformFrameW.height ∧
    uniformFrameW.data.length = uniformFrameW.width * uniformFrameW.height * 4 ∧
    ((1 ≤ 1 ∧ 1 < uniformFrameW.width - 1 ∧ 1 ≤ 1 ∧
        1 < uniformFrameW.height - 1) →
      (sobelEdge Rat.sqrt uniformFrameW).data[4*(1*uniformFrameW.width+1)]? =
        some 0 ∧
      (sobelEdge Rat.sqrt uniformFrameW).data[4*(1*uniformFrameW.width+1)+1]? =
        some 0 ∧
      (sobelEdge Rat.sqrt uniformFrameW).data[4*(1*uniformFrameW.width+1)+2]? =
        some 0 ∧
      (sobelEdge Rat.sqrt uniformFrameW).data[4*(1*uniformFrameW.width+1)+3]? =
        some 255) :=
  ⟨by norm_num [Rat.sqrt], by decide, by decide, by decide,
   ((sobelEdge_uniform_frame Rat.sqrt uniformFrameW 5 5 5
      (by norm_num [Rat.sqrt]) (by decide) (by decide) (by decide)
      (by decide)).2.2.2 1 1 (by decide) (by decide)).1⟩

/-! ### Edge-cache throttling -/

/-- The very first `renderEdge` call recomputes even though its frame
counter (1) is not divisible by `skip + 1 = 2`: the cache is still empty,
so the `|| !ec.imageData` disjunct forces a compute.  This refutes the
reading that recomputes happen exactly on `frameCounter mod 2 == 0`
frames. -/
theorem renderEdge_first_frame_recomputes_despite_odd_counter :
    (renderEdgeStep Rat.sqrt initEdgeCache ⟨0, 0, []⟩).2 = true ∧
    (initEdgeCache.frameCounter + 1) % (initEdgeCache.skip + 1) ≠ 0 := by
  constructor
  · simp [renderEdgeStep, initEdgeCache]
  · simp [initEdgeCache]

/-- Amended throttling claim: a recompute happens exactly when the
incremented frame counter is divisible by `skip + 1` or no cached frame
exists yet; on every other call the cache is left unchanged.  With
`skip = 1` from a fresh pipeline, the four-call trace is
`[true, true, false, true]` — frame 1 computes because the cache is
empty, frames 2 and 4 because the counter is even, and frame 3 reuses
frame 2's cached edge map unchanged. -/
theorem renderEdge_throttle_rule (sq : ℚ → ℚ) (f1 f2 f3 f4 : ImgData) :
    (∀ (ec : EdgeCache) (fr : ImgData),
      ((renderEdgeStep sq ec fr).2 = true ↔
        ((ec.frameCounter + 1) % (ec.skip + 1) = 0 ∨ ec.imageData = none))) ∧
    (∀ (ec : EdgeCache) (fr : ImgData), (renderEdgeStep sq ec fr).2 = false →
      (renderEdgeStep sq ec fr).1.imageData = ec.imageData) ∧
    (renderEdgeRun sq initEdgeCache [f1, f2, f3, f4]).2 =
      [true, true, false, true] ∧
    (renderEdgeStep sq (renderEdgeStep sq initEdgeCache f1).1 f2).1.imageData =
      some (sobelEdge sq f2) ∧
    (renderEdgeStep sq
        (renderEdgeStep sq (renderEdgeStep sq initEdgeCache f1).1 f2).1
        f3).1.imageData =
      (renderEdgeStep sq (renderEdgeStep sq initEdgeCache f1).1 f2).1.imageData := by
  refine ⟨?_, ?_, ?_, ?_, ?_⟩
  · intro ec fr
    rw [renderEdgeStep]
    split_ifs with hcond <;> simp [hcond]
  · intro ec fr hfalse
    by_cases hcond : ((ec.frameCounter + 1) % (ec.skip + 1) = 0 ∨
        ec.imageData = none)
    · rw [renderEdgeStep] at hfalse
      simp [hcond] at hfalse
    · rw [renderEdgeStep]
      simp [hcond]
  · simp [renderEdgeRun, renderEdgeStep, initEdgeCache]
  · simp [renderEdgeStep, initEdgeCache]
  · simp [renderEdgeStep, initEdgeCache]

/-- Witness: the amended throttle theorem at concrete inputs (empty
frames, `Rat.sqrt`). -/
theorem renderEdge_throttle_rule_witness :
    (renderEdgeRun Rat.sqrt initEdgeCache
      [⟨0, 0, []⟩, ⟨0, 0, []⟩, ⟨0, 0, []⟩, ⟨0, 0, []⟩]).2 =
      [true, true, false, true] :=
  (renderEdge_throttle_rule Rat.sqrt ⟨0, 0, []⟩ ⟨0, 0, []⟩ ⟨0, 0, []⟩
    ⟨0, 0, []⟩).2.2.1

/-! ### LUT cache memoization -/

theorem lutLookup_preserved (cache : List (String × LUT)) (m : LutMeta)
    (k : String) (T : LUT) (h : lutLookup cache k = some T) :
    lutLookup (getOrCreateLUT cache m).2.1 k = some T := by
  rw [getOrCreateLUT]
  cases hm : lutLookup cache m.key with
  | some t => simpa using h
  | none =>
    by_cases hk : m.key = k
    · rw [hk] at hm
      rw [h] at hm
      cases hm
    · simpa [lutLookup, hk] using h

theorem lutLookup_after_getOrCreate (cache : List (String × LUT))
    (m : LutMeta) :
    lutLookup (getOrCreateLUT cache m).2.1 m.key =
      some (getOrCreateLUT cache m).1 := by
  rw [getOrCreateLUT]
  cases hm : lutLookup cache m.key with
  | some t => simpa using hm
  | none => simp [lutLookup]

theorem runLUTCalls_cached_events (k : String) (T : LUT) :
    ∀ (ms : List LutMeta) (cache : List (String × LUT)),
      lutLookup cache k = some T →
      ∀ e ∈ (runLUTCalls cache ms).2, e.1 = k → e.2.1 = T ∧ e.2.2 = false := by
  intro ms
  induction ms with
  | nil =>
    intro cache _ e he
    simp [runLUTCalls] at he
  | cons m ms ih =>
    intro cache h e he hek
    simp only [runLUTCalls, List.mem_cons] at he
    rcases he with he | he
    · subst he
      simp only at hek
      rw [getOrCreateLUT]
      rw [hek, h]
      exact ⟨rfl, rfl⟩
    · exact ih _ (lutLookup_preserved cache m k T h) e he hek

theorem runLUTCalls_countP_zero_of_cached (k : String) (T : LUT)
    (ms : List LutMeta) (cache : List (String × LUT))
    (h : lutLookup cache k = some T) :
    ((runLUTCalls cache ms).2.countP
      (fun e => decide (e.1 = k) && e.2.2)) = 0 := by
  rw [List.countP_eq_zero]
  intro e he
  by_cases hek : e.1 = k
  · have := (runLUTCalls_cached_events k T ms cache h e he hek).2
    simp [this]
  · simp [hek]

theorem runLUTCalls_countP_le_one (k : String) :
    ∀ (ms : List LutMeta) (cache : List (String × LUT)),
      ((runLUTCalls cache ms).2.countP
        (fun e => decide (e.1 = k) && e.2.2)) ≤ 1 := by
  intro ms
  induction ms with
  | nil => intro cache; simp [runLUTCalls]
  | cons m ms ih =>
    intro cache
    simp only [runLUTCalls, List.countP_cons]
    by_cases hk : m.key = k
    · cases hm : lutLookup cache m.key with
      | some t =>
        have hz : (getOrCreateLUT cache m).2.2 = false := by
          rw [getOrCreateLUT, hm]
        simp only [hz, Bool.and_false, cond_false]
        have hcache : (getOrCreateLUT cache m).2.1 = cache := by
          rw [getOrCreateLUT, hm]
        rw [hcache]
        simpa using ih cache
      | none =>
        have hz : (getOrCreateLUT cache m).2.2 = true := by
          rw [getOrCreateLUT, hm]
        have hnext : lutLookup (getOrCreateLUT cache m).2.1 k =
            some (getOrCreateLUT cache m).1 := by
          rw [← hk]
          exact lutLookup_after_getOrCreate cache m
        have hrest := runLUTCalls_countP_zero_of_cached k
          (getOrCreateLUT cache m).1 ms (getOrCreateLUT cache m).2.1 hnext
        rw [hrest]
        split_ifs <;> norm_num
    · have : (decide (m.key = k) && (getOrCreateLUT cache m).2.2) = false := by
        simp [hk]
      simp only [this, cond_false]
      simpa using ih (getOrCreateLUT cache m).2.1

/-- For any sequence of LUT-grade invocations starting from the fresh
(empty) cache, the LUT for a given filter key is built at most once, and
every invocation with that key returns the identical cached table. -/
theorem lut_build_at_most_once (ms : List LutMeta) (k : String) :
    ((runLUTCalls [] ms).2.countP
      (fun e => decide (e.1 = k) && e.2.2)) ≤ 1 ∧
    ∀ e1 ∈ (runLUTCalls [] ms).2, ∀ e2 ∈ (runLUTCalls [] ms).2,
      e1.1 = k → e2.1 = k → e1.2.1 = e2.2.1 := by
  constructor
  · exact runLUTCalls_countP_le_one k ms []
  · suffices hgen : ∀ (ms : List LutMeta) (cache : List (String × LUT)),
        ∀ e1 ∈ (runLUTCalls cache ms).2, ∀ e2 ∈ (runLUTCalls cache ms).2,
          e1.1 = k → e2.1 = k → e1.2.1 = e2.2.1 by
      exact hgen ms []
    intro ms
    induction ms with
    | nil =>
      intro cache e1 he1
      simp [runLUTCalls] at he1
    | cons m ms ih =>
      intro cache e1 he1 e2 he2 h1 h2
      simp only [runLUTCalls, List.mem_cons] at he1 he2
      have hafter := lutLookup_after_getOrCreate cache m
      rcases he1 with he1 | he1 <;> rcases he2 with he2 | he2
      · rw [he1, he2]
      · subst he1
        simp only at h1
        rw [h1] at hafter
        have := (runLUTCalls_cached_events k _ ms _ hafter e2 he2 h2).1
        rw [this]
      · subst he2
        simp only at h2
        rw [h2] at hafter
        have := (runLUTCalls_cached_events k _ ms _ hafter e1 he1 h1).1
        rw [this]
      · exact ih _ e1 he1 e2 he2 h1 h2

/-- Witness: the memoization theorem on a concrete three-call sequence
(the same key twice, then another key). -/
theorem lut_build_at_most_once_witness :
    ((runLUTCalls [] lutMetasW).2.countP
      (fun e => decide (e.1 = "wkw_neon") && e.2.2)) ≤ 1 :=
  (lut_build_at_most_once lutMetasW "wkw_neon").1

/-! ### Unknown filter keys -/

/-- A filter key that is absent from `FilterList` and is not one of the
special keys `'pixelate'`/`'edge'` falls back to the identity transform:
`apply` performs a mirrored draw with filter `'none'`, whose output pixel
at column `x` is the unmodified source pixel at column `width - 1 - x`. -/
theorem apply_unknown_key_mirrors_identity (key : String)
    (cssSem : String → (ℚ × ℚ × ℚ × ℚ) → (ℚ × ℚ × ℚ × ℚ))
    (hcss : ∀ p, cssSem "none" p = p)
    (hk : key ∉ FilterList.map (fun m => m.key))
    (hp : key ≠ "pixelate") (he : key ≠ "edge") :
    applyAction key = RenderAction.mirrorCss "none" ∧
    ∀ (src : CFrame) (x y : ℕ),
      (drawMirrored cssSem "none" src).pix x y =
        src.pix (src.width - 1 - x) y := by
  constructor
  · simp only [FilterList, List.map_cons, List.map_nil, List.mem_cons,
      List.mem_singleton, List.not_mem_nil] at hk
    push_neg at hk
    obtain ⟨h1, h2, h3, h4, h5, _⟩ := hk
    have hfind : findFilter FilterList key = none := by
      simp [findFilter, FilterList, Ne.symm h1, Ne.symm h2, Ne.symm h3,
        Ne.symm h4, Ne.symm h5]
    rw [applyAction, hfind]
    simp [hp, he]
  · intro src x y
    simp [drawMirrored, hcss]

/-- Witness: the unknown-key theorem at the concrete key `"vhs"` with the
identity CSS semantics and a concrete 2×1 frame. -/
theorem apply_unknown_key_mirrors_identity_witness :
    applyAction "vhs" = RenderAction.mirrorCss "none" ∧
    (drawMirrored (fun _ p => p) "none" mirrorFrameW).pix 0 0 =
      mirrorFrameW.pix (mirrorFrameW.width - 1 - 0) 0 :=
  ⟨(apply_unknown_key_mirrors_identity "vhs" (fun _ p => p) (fun _ => rfl)
      (by simp [FilterList]) (by simp) (by simp)).1,
   (apply_unknown_key_mirrors_identity "vhs" (fun _ p => p) (fun _ => rfl)
      (by simp [FilterList]) (by simp) (by simp)).2 mirrorFrameW 0 0⟩

/-! ### Clap detector temporal property -/

theorem clapUpdate_trigger_pre (cfg : ClapConfig) (s : ClapState)
    (d : ℚ) (b : Bool) (t : ℚ)
    (h : (clapUpdate cfg s d b t).2 = true) :
    s.inClapZone = false ∧ (clapUpdate cfg s d b t).1.inClapZone = true ∧
    (clapUpdate cfg s d b t).1.cooldownUntil = t + cfg.cooldownMs := by
  rcases hbs : s.belowSince with _ | t0 <;>
    · simp only [clapUpdate, hbs] at h ⊢
      split_ifs at h ⊢ <;> simp_all

theorem clapUpdate_inZone_keep (cfg : ClapConfig) (s : ClapState)
    (d t : ℚ) (hz : s.inClapZone = true)
    (hng : ¬(s.cooldownUntil ≤ t ∧ cfg.hysteresisUp < d)) :
    (clapUpdate cfg s d true t).1.inClapZone = true ∧
    (clapUpdate cfg s d true t).1.cooldownUntil = s.cooldownUntil ∧
    (clapUpdate cfg s d true t).2 = false := by
  rw [clapUpdate]
  rw [if_neg (by simp : ¬(true = false))]
  by_cases h2 : t < s.cooldownUntil
  · rw [if_pos h2]
    exact ⟨hz, rfl, rfl⟩
  · rw [if_neg h2]
    have h3 : ¬(s.inClapZone = false ∧ d < cfg.thresholdRel) := by
      rintro ⟨hfz, _⟩
      rw [hz] at hfz
      cases hfz
    rw [if_neg h3]
    have h4 : ¬(s.inClapZone = true ∧ cfg.hysteresisUp < d) := by
      rintro ⟨_, hdd⟩
      exact hng ⟨le_of_not_lt h2, hdd⟩
    rw [if_neg h4]
    have h5 : ¬(s.inClapZone = false ∧ cfg.thresholdRel ≤ d) := by
      rintro ⟨hfz, _⟩
      rw [hz] at hfz
      cases hfz
    rw [if_neg h5]
    exact ⟨hz, rfl, rfl⟩

/-- Between any two triggers of the clap detector (with the app.js
configuration), there is an intervening call where `bothHands` is false,
or an intervening call at or after the cooldown deadline
(`trigger time + cooldownMs`) where the distance strictly exceeds
`hysteresisUp`: no re-trigger until the in-zone flag has been cleared by
hand absence or by the exit hysteresis after the cooldown. -/
theorem clap_no_retrigger_until_release (s0 : ClapState)
    (f : ℕ → ClapInput) (i j : ℕ) (hij : i < j)
    (hi : clapOutAt appClapConfig s0 f i = true)
    (hj : clapOutAt appClapConfig s0 f j = true) :
    ∃ m, i < m ∧ m < j ∧
      ((f m).both = false ∨
        ((f i).now + appClapConfig.cooldownMs ≤ (f m).now ∧
          appClapConfig.hysteresisUp < (f m).d)) := by
  by_contra hcon
  push_neg at hcon
  have hstep : ∀ k, i + 1 + k ≤ j →
      (clapStateAt appClapConfig s0 f (i + 1 + k)).inClapZone = true ∧
      (clapStateAt appClapConfig s0 f (i + 1 + k)).cooldownUntil =
        (f i).now + appClapConfig.cooldownMs := by
    intro k
    induction k with
    | zero =>
      intro _
      have h := clapUpdate_trigger_pre appClapConfig
        (clapStateAt appClapConfig s0 f i) (f i).d (f i).both (f i).now hi
      have harith : i + 1 + 0 = i + 1 := by omega
      rw [harith]
      rw [clapOutAt] at hi
      exact ⟨by rw [clapStateAt]; exact h.2.1, by rw [clapStateAt]; exact h.2.2⟩
    | succ k ih =>
      intro hk
      obtain ⟨hz, hcd⟩ := ih (by omega)
      have hmem := hcon (i + 1 + k) (by omega) (by omega)
      have hboth : (f (i + 1 + k)).both = true := by
        cases hb : (f (i + 1 + k)).both
        · exact absurd hb hmem.1
        · rfl
      have hng : ¬((clapStateAt appClapConfig s0 f (i + 1 + k)).cooldownUntil ≤
          (f (i + 1 + k)).now ∧
          appClapConfig.hysteresisUp < (f (i + 1 + k)).d) := by
        rw [hcd]
        rintro ⟨ha, hb⟩
        exact absurd hb (not_lt.mpr (hmem.2 ha))
      have hkeep := clapUpdate_inZone_keep appClapConfig
        (clapStateAt appClapConfig s0 f (i + 1 + k)) (f (i + 1 + k)).d
        (f (i + 1 + k)).now hz hng
      have harith : i + 1 + (k + 1) = (i + 1 + k) + 1 := by omega
      rw [harith, clapStateAt, hboth]
      exact ⟨hkeep.1, by rw [hkeep.2.1, hcd]⟩
  have hjz := hstep (j - (i + 1)) (by omega)
  have harj : i + 1 + (j - (i + 1)) = j := by omega
  rw [harj] at hjz
  have hpre := clapUpdate_trigger_pre appClapConfig
    (clapStateAt appClapConfig s0 f j) (f j).d (f j).both (f j).now hj
  rw [hpre.1] at hjz
  cases hjz.1

/-- Witness: the no-retrigger theorem on a concrete run with triggers at
calls 2 and 6, separated by the wide-release call 3 at `t = 800 ≥ 750`
with distance `0.3 > 0.216`. -/
theorem clap_no_retrigger_until_release_witness :
    clapOutAt appClapConfig initClapState clapSeqC10 2 = true ∧
    clapOutAt appClapConfig initClapState clapSeqC10 6 = true ∧
    ∃ m, 2 < m ∧ m < 6 ∧
      ((clapSeqC10 m).both = false ∨
        ((clapSeqC10 2).now + appClapConfig.cooldownMs ≤ (clapSeqC10 m).now ∧
          appClapConfig.hysteresisUp < (clapSeqC10 m).d)) :=
  ⟨by norm_num [clapOutAt, clapStateAt, clapUpdate, appClapConfig,
      initClapState, clapSeqC10],
   by norm_num [clapOutAt, clapStateAt, clapUpdate, appClapConfig,
      initClapState, clapSeqC10],
   clap_no_retrigger_until_release initClapState clapSeqC10 2 6 (by norm_num)
     (by norm_num [clapOutAt, clapStateAt, clapUpdate, appClapConfig,
        initClapState, clapSeqC10])
     (by norm_num [clapOutAt, clapStateAt, clapUpdate, appClapConfig,
        initClapState, clapSeqC10])⟩

end VideoFilters
